import Mathlib

/-!
Verification development for the distributed MNIST training driver
(`resnet18_mnist_ddp.py`).  The script is shallowly embedded: the shard
computation of the dataset sampler, the numeric part of the evaluation
loop, and the event trace of `main` (environment reads, process-group
initialization, model construction, the epoch loop, console prints,
checkpoint write, cleanup) are translated into executable Lean
definitions, and the specification claims are settled as theorems about
those definitions.
-/

/-! ## Dataset shard provider

Modelled from the spec: the shard provider (`DistributedSampler`, an
external library the script instantiates at lines 112 and 122) is not
part of the repository source.  Per the spec (§4.3), given a dataset of
size `N`, world size `W` and rank `R < W` it deterministically partitions
the (possibly shuffled) index list into per-rank subsets that are
disjoint up to the padding needed for even division, cover all `N`
indices, and have sizes within one of `N/W`.  Concretely we model the
standard strided partition: the shuffled base order is padded cyclically
up to `ceil(N/W) * W` entries and rank `R` takes positions
`R, R + W, R + 2W, ...`.  The shuffle is an arbitrary permutation of
`List.range N`, kept as a parameter `randperm` keyed by `seed + epoch`. -/

/-- Number of samples each rank receives: `ceil(N / W)`. -/
def numSamples (N W : Nat) : Nat := (N + W - 1) / W

/-- Padded total length of the index list: `numSamples * W`. -/
def totalSize (N W : Nat) : Nat := numSamples N W * W

/-- Entry of the cyclically padded index list at position `p`:
the base (shuffled) list is repeated to fill `totalSize` slots. -/
def padGet (base : List Nat) (p : Nat) : Nat :=
  base.getD (p % base.length) 0

/-- The index sequence rank `r` receives: positions
`r, r + W, r + 2W, ...` of the padded index list. -/
def shardIndices (base : List Nat) (W r : Nat) : List Nat :=
  (List.range (numSamples base.length W)).map (fun j => padGet base (r + j * W))

/-- Values sitting in the padding region (positions `N ..< totalSize`)
of the padded index list; only these may be duplicated across ranks. -/
def paddingValues (base : List Nat) (W : Nat) : List Nat :=
  (List.range (totalSize base.length W - base.length)).map
    (fun k => padGet base (base.length + k))

/-- Sampler state as constructed by the script: dataset size, world
size, rank, shuffle seed, and the epoch counter used to reseed the
shuffle.  The script constructs samplers with library defaults
(`seed = 0`, `epoch = 0`). -/
structure SamplerState where
  N : Nat
  W : Nat
  rank : Nat
  seed : Nat
  epoch : Nat
deriving DecidableEq, Repr

/-- Sampler construction (`DistributedSampler(dataset, num_replicas, rank)`):
the epoch counter starts at 0. -/
def makeSampler (N W r seed : Nat) : SamplerState :=
  { N := N, W := W, rank := r, seed := seed, epoch := 0 }

/-- The index sequence a sampler state yields when iterated: the base
order is the shuffle of `List.range N` keyed by `seed + epoch`, and the
rank takes its strided slice of the padded list. -/
def samplerSeq (randperm : Nat → Nat → List Nat) (s : SamplerState) : List Nat :=
  shardIndices (randperm (s.seed + s.epoch) s.N) s.W s.rank

/-- `set_epoch`: replaces the epoch counter.  The script never calls
this; it is included to state its absence. -/
def setEpoch (s : SamplerState) (e : Nat) : SamplerState :=
  { s with epoch := e }

/-! ## Evaluation-loop numerics (`test`, lines 51-68)

The network and criterion are external; a batch is abstracted to the
list of its per-example losses (rationals standing for the reals).
`nn.CrossEntropyLoss()` uses its default mean reduction, so
`criterion(output, target).item()` is the batch mean, and `test`
accumulates those means.  `length = len(test_loader.dataset)/world_size`
is Python true division, exact division in `ℚ`. -/

/-- Mean per-example loss of one batch (the criterion default mean
reduction applied to a batch of per-example losses). -/
def batchMeanLoss (b : List ℚ) : ℚ := b.sum / (b.length : ℚ)

/-- `test_loss` after the loop: the sum over batches of each batch's
mean loss (`test_loss += criterion(output, target).item()`). -/
def testLossAccum (batches : List (List ℚ)) : ℚ :=
  (batches.map batchMeanLoss).sum

/-- The expected shard size `len(test_loader.dataset)/world_size`
(Python true division). -/
def expectedShardSize (N W : Nat) : ℚ := (N : ℚ) / (W : ℚ)

/-- The true per-example mean loss over the examples actually iterated. -/
def perExampleMeanLoss (batches : List (List ℚ)) : ℚ :=
  (batches.map List.sum).sum / ((batches.map List.length).sum : ℚ)

/-- Result of one evaluation run as the script computes and prints it:
`avgLoss` is `test_loss /= length`, `correct` the summed correct
counts, `denom` the denominator printed under the accuracy fraction,
and `accuracyPct` the printed percentage `100. * correct / length`. -/
structure TestReport where
  avgLoss : ℚ
  correct : Nat
  denom : ℚ
  accuracyPct : ℚ
deriving DecidableEq, Repr

/-- The `test` function's numeric behaviour (lines 51-68): losses are
given per batch as per-example losses, correct counts per batch. -/
def testRun (lossBatches : List (List ℚ)) (correctBatches : List Nat)
    (N W : Nat) : TestReport :=
  let length : ℚ := expectedShardSize N W
  { avgLoss := testLossAccum lossBatches / length
    correct := correctBatches.sum
    denom := length
    accuracyPct := 100 * (correctBatches.sum : ℚ) / length }

/-! ## Event-trace model of `main` (lines 71-156)

Each externally visible step of the script is an event; a run produces
the list of events in program order together with an optional fatal
error (`none` = exit status 0, `some msg` = non-zero exit). -/

/-- Events of a run, in program order. -/
inductive Event where
  | distInit (rank world : Nat)
  | datasetLoad (train : Bool)
  | modelConstruct
  | fetchBatch (epoch b : Nat)
  | zeroGrad (epoch b : Nat)
  | forwardPass (epoch b : Nat)
  | computeLoss (epoch b : Nat)
  | backwardPass (epoch b : Nat)
  | optimizerStep (epoch b : Nat)
  | printTrainProgress (epoch b : Nat)
  | printTestSummary (epoch : Nat)
  | printElapsed
  | saveCheckpoint (file : String)
  | cleanupGroup
deriving DecidableEq, Repr

/-- Is the event a console print? -/
def Event.isPrint : Event → Bool
  | .printTrainProgress _ _ => true
  | .printTestSummary _ => true
  | .printElapsed => true
  | _ => false

/-- The console output of a trace: its print events, in order. -/
def consoleOf (tr : List Event) : List Event := tr.filter Event.isPrint

/-- Command-line configuration (the `argparse` arguments the trace
model depends on). -/
structure Args where
  epochs : Nat
  logInterval : Nat
  saveModel : Bool
deriving DecidableEq, Repr

/-- One pass of `train` (lines 37-49): for each batch, fetch, zero the
gradients, forward, compute loss, backward (gradient sync), optimizer
step; every `log_interval` batches rank 0 prints progress. -/
def trainEvents (logInterval rank epoch numBatches : Nat) : List Event :=
  (List.range numBatches).flatMap (fun b =>
    [Event.fetchBatch epoch b, Event.zeroGrad epoch b, Event.forwardPass epoch b,
     Event.computeLoss epoch b, Event.backwardPass epoch b, Event.optimizerStep epoch b]
    ++ (if b % logInterval = 0 ∧ rank = 0 then [Event.printTrainProgress epoch b] else []))

/-- One pass of `test` (lines 51-68), trace side: rank 0 prints the
summary line, other ranks print nothing. -/
def testEvents (rank epoch : Nat) : List Event :=
  if rank = 0 then [Event.printTestSummary epoch] else []

/-- One iteration of the epoch loop (lines 141-143). -/
def epochEvents (a : Args) (rank epoch numBatches : Nat) : List Event :=
  trainEvents a.logInterval rank epoch numBatches ++ testEvents rank epoch

/-- The epoch loop `for epoch in range(1, args.epochs + 1)` starting at
epoch `e` with `fuel` iterations remaining. -/
def loopFrom (a : Args) (rank numBatches : Nat) : Nat → Nat → List Event
  | _, 0 => []
  | e, fuel + 1 => epochEvents a rank e numBatches ++ loopFrom a rank numBatches (e + 1) fuel

/-- The whole epoch loop of `main`. -/
def mainLoopEvents (a : Args) (rank numBatches : Nat) : List Event :=
  loopFrom a rank numBatches 1 a.epochs

/-- The environment: `os.environ`, a partial map from variable names to
string values. -/
def Env : Type := String → Option String

/-- Value of a decimal digit character, else `none`. -/
def charDigit (c : Char) : Option Nat :=
  if '0' ≤ c ∧ c ≤ '9' then some (c.toNat - 48) else none

/-- Accumulating decimal parser over a character list. -/
def parseDigits : List Char → Nat → Option Nat
  | [], acc => some acc
  | c :: cs, acc =>
    match charDigit c with
    | none => none
    | some d => parseDigits cs (acc * 10 + d)

/-- Python `int(...)` on a nonnegative decimal string: `none` on the
empty string or any non-digit character (ValueError). -/
def strToNat (s : String) : Option Nat :=
  match s.data with
  | [] => none
  | cs => parseDigits cs 0

/-- `int(os.environ[name])`: `none` if the variable is missing or not a
numeral (KeyError / ValueError, both fatal). -/
def envNat (env : Env) (name : String) : Option Nat :=
  (env name).bind strToNat

/-- The run of `main` after argument parsing (lines 98-154): reads the
four SLURM values (KeyError aborts with no events emitted), then
initializes the process group, loads both dataset splits, constructs
the model, runs the epoch loop, prints elapsed time on rank 0, saves
the checkpoint iff the flag is set, and destroys the process group.
`numBatches` abstracts the number of training batches the loader
yields. -/
def mainRun (env : Env) (a : Args) (numBatches : Nat) :
    List Event × Option String :=
  match envNat env "SLURM_PROCID" with
  | none => ([], some "KeyError: SLURM_PROCID")
  | some rank =>
    match envNat env "SLURM_LOCALID" with
    | none => ([], some "KeyError: SLURM_LOCALID")
    | some _localRank =>
      match envNat env "SLURM_NTASKS" with
      | none => ([], some "KeyError: SLURM_NTASKS")
      | some worldSize =>
        match env "SLURM_JOB_NODELIST" with
        | none => ([], some "KeyError: SLURM_JOB_NODELIST")
        | some _nodelist =>
          ([Event.distInit rank worldSize,
            Event.datasetLoad true, Event.datasetLoad false,
            Event.modelConstruct]
           ++ mainLoopEvents a rank numBatches
           ++ (if rank = 0 then [Event.printElapsed] else [])
           ++ (if a.saveModel then [Event.saveCheckpoint "mnist_cnn.pt"] else [])
           ++ [Event.cleanupGroup], none)

/-! ## The epoch loop and the training sampler (claim C9)

`main` creates `train_sampler` once (line 112) and the epoch loop
(lines 141-143) iterates the same loader each epoch; the source contains
no `set_epoch` call, so the sampler state is threaded through the loop
unchanged.  `runEpochSeqs` returns, per epoch, the index sequence the
training loader yields in that epoch. -/

/-- One epoch of the loop as it affects the training sampler: the
loader iterates the sampler (yielding `samplerSeq`), and since `main`
never calls `set_epoch`, the state passes through unchanged. -/
def epochSamplerStep (randperm : Nat → Nat → List Nat) (s : SamplerState) :
    List Nat × SamplerState :=
  (samplerSeq randperm s, s)

/-- The per-epoch index sequences produced over `n` epochs of the loop. -/
def runEpochSeqs (randperm : Nat → Nat → List Nat) (s : SamplerState) :
    Nat → List (List Nat)
  | 0 => []
  | n + 1 =>
    let p := epochSamplerStep randperm s
    p.1 :: runEpochSeqs randperm p.2 n

/-! ## Concrete inputs used by witnesses -/

/-- A concrete environment carrying all four SLURM variables, with
global rank 1 (a non-coordinator process). -/
def envRank1 : Env := fun name =>
  if name = "SLURM_PROCID" then some "1"
  else if name = "SLURM_LOCALID" then some "0"
  else if name = "SLURM_NTASKS" then some "2"
  else if name = "SLURM_JOB_NODELIST" then some "node0"
  else none

/-- A concrete environment carrying all four SLURM variables, with
global rank 0 (the coordinator process). -/
def envRank0 : Env := fun name =>
  if name = "SLURM_PROCID" then some "0"
  else if name = "SLURM_LOCALID" then some "0"
  else if name = "SLURM_NTASKS" then some "2"
  else if name = "SLURM_JOB_NODELIST" then some "node0"
  else none

/-- The empty environment: every variable is missing. -/
def envMissingAll : Env := fun _ => none

/-! ## Helper lemmas -/

/-- Since the loop never mutates the sampler, the per-epoch sequences
are all equal to the sequence of the initial state. -/
theorem runEpochSeqs_eq_replicate (randperm : Nat → Nat → List Nat)
    (s : SamplerState) (n : Nat) :
    runEpochSeqs randperm s n = List.replicate n (samplerSeq randperm s) := by
  induction n with
  | zero => rfl
  | succ n ih => simp [runEpochSeqs, epochSamplerStep, ih, List.replicate_succ]

/-! ## Claims -/

/-- C3: In every evaluation run, the accumulated loss is divided by
(total evaluation dataset size / world_size), the expected shard size,
regardless of the number of examples the rank actually iterated, and
that same value is the denominator of the printed accuracy fraction. -/
theorem eval_divides_by_expected_shard_size
    (b₁ b₂ : List (List ℚ)) (c₁ c₂ : List Nat) (N W : Nat) :
    (testRun b₁ c₁ N W).avgLoss = testLossAccum b₁ / expectedShardSize N W ∧
    (testRun b₁ c₁ N W).denom = expectedShardSize N W ∧
    (testRun b₁ c₁ N W).accuracyPct =
      100 * ((testRun b₁ c₁ N W).correct : ℚ) / expectedShardSize N W ∧
    (testRun b₁ c₁ N W).denom = (testRun b₂ c₂ N W).denom :=
  ⟨rfl, rfl, rfl, rfl⟩

/-- C7: Shard computation is pure and deterministic: two sampler states
built from identical (N, W, R, seed) yield the identical index
sequence, for any shuffle function. -/
theorem shard_computation_deterministic
    (randperm : Nat → Nat → List Nat) (N W r seed : Nat) (s t : SamplerState)
    (hs : s = makeSampler N W r seed) (ht : t = makeSampler N W r seed) :
    samplerSeq randperm s = samplerSeq randperm t := by
  subst hs; subst ht; rfl

/-- Witness for C7 at concrete inputs. -/
theorem shard_computation_deterministic_witness :
    samplerSeq (fun _ n => List.range n) (makeSampler 10 2 1 0) =
      samplerSeq (fun _ n => List.range n) (makeSampler 10 2 1 0) :=
  shard_computation_deterministic (fun _ n => List.range n) 10 2 1 0 _ _ rfl rfl

/-- C9: Since the training sampler's epoch is never advanced (no
set_epoch call anywhere in the loop), the index sequence a rank
receives is identical in every epoch of the job. -/
theorem epoch_sequences_all_identical
    (randperm : Nat → Nat → List Nat) (N W r seed n i j : Nat)
    (hi : i < n) (hj : j < n) :
    (runEpochSeqs randperm (makeSampler N W r seed) n).getD i [] =
      (runEpochSeqs randperm (makeSampler N W r seed) n).getD j [] := by
  simp [runEpochSeqs_eq_replicate, List.getD_eq_getElem?_getD,
    List.getElem?_replicate, hi, hj]

/-- Witness for C9 at concrete inputs. -/
theorem epoch_sequences_all_identical_witness :
    0 < 3 ∧ 2 < 3 ∧
      (runEpochSeqs (fun _ n => List.range n) (makeSampler 8 2 1 0) 3).getD 0 [] =
        (runEpochSeqs (fun _ n => List.range n) (makeSampler 8 2 1 0) 3).getD 2 [] :=
  ⟨by decide, by decide,
    epoch_sequences_all_identical (fun _ n => List.range n) 8 2 1 0 3 0 2
      (by decide) (by decide)⟩

/-- A non-coordinator rank emits no print event during `train`. -/
theorem consoleOf_trainEvents_eq_nil (li r e n : Nat) (h : r ≠ 0) :
    consoleOf (trainEvents li r e n) = [] := by
  rw [consoleOf, trainEvents, List.filter_flatMap]
  rw [List.flatMap_eq_nil_iff]
  intro b _hb
  simp only [Function.comp, List.filter_append]
  rw [List.append_eq_nil]
  constructor
  · rfl
  · split
    · rename_i hcond
      exact absurd hcond.2 h
    · rfl

/-- A non-coordinator rank emits no print event during `test`. -/
theorem consoleOf_testEvents_eq_nil (r e : Nat) (h : r ≠ 0) :
    consoleOf (testEvents r e) = [] := by
  rw [consoleOf, testEvents]
  split
  · rename_i hcond; exact absurd hcond h
  · rfl

/-- A non-coordinator rank emits no print event over the whole epoch
loop. -/
theorem consoleOf_loopFrom_eq_nil (a : Args) (r nb : Nat) (h : r ≠ 0) :
    ∀ fuel e, consoleOf (loopFrom a r nb e fuel) = [] := by
  intro fuel
  induction fuel with
  | zero => intro e; rfl
  | succ m ih =>
    intro e
    rw [loopFrom, consoleOf, List.filter_append]
    rw [List.append_eq_nil]
    constructor
    · rw [epochEvents, List.filter_append, List.append_eq_nil]
      exact ⟨consoleOf_trainEvents_eq_nil a.logInterval r e nb h,
        consoleOf_testEvents_eq_nil r e h⟩
    · exact ih (e + 1)

/-- If `envNat` succeeds, the underlying variable is present. -/
theorem envNat_isSome_of_eq_some {env : Env} {name : String} {v : Nat}
    (h : envNat env name = some v) : env name ≠ none := by
  intro hnone
  rw [envNat, hnone] at h
  exact Option.noConfusion h

/-- C2: for identical inputs, only the process with global_rank = 0
produces console output; a process whose parsed global rank is nonzero
produces no console output at all. -/
theorem only_coordinator_prints
    (env : Env) (a : Args) (nb r : Nat)
    (hr : envNat env "SLURM_PROCID" = some r) (h : r ≠ 0) :
    consoleOf (mainRun env a nb).1 = [] := by
  rcases hl : envNat env "SLURM_LOCALID" with _ | lr
  · simp [mainRun, hr, hl, consoleOf]
  rcases hn : envNat env "SLURM_NTASKS" with _ | ws
  · simp [mainRun, hr, hl, hn, consoleOf]
  rcases hj : env "SLURM_JOB_NODELIST" with _ | node
  · simp [mainRun, hr, hl, hn, hj, consoleOf]
  have hloop := consoleOf_loopFrom_eq_nil a r nb h a.epochs 1
  simp only [mainRun, hr, hl, hn, hj]
  rw [consoleOf, List.filter_append, List.filter_append, List.filter_append,
    List.filter_append]
  rw [mainLoopEvents] at *
  rw [consoleOf] at hloop
  rw [hloop]
  simp [Event.isPrint, h]

/-- Witness for C2 at concrete inputs: rank 1, two epochs, three
batches. -/
theorem only_coordinator_prints_witness :
    envNat envRank1 "SLURM_PROCID" = some 1 ∧ (1 : Nat) ≠ 0 ∧
      consoleOf (mainRun envRank1 ⟨2, 10, false⟩ 3).1 = [] :=
  ⟨by decide, by decide,
    only_coordinator_prints envRank1 ⟨2, 10, false⟩ 3 1 (by decide) (by decide)⟩

/-- C5: if any of the four required environment values is missing at
startup, the run fails (non-zero exit), emits no events at all — in
particular no model construction and no console output — and never
retries. -/
theorem missing_env_fails_fast
    (env : Env) (a : Args) (nb : Nat)
    (h : env "SLURM_PROCID" = none ∨ env "SLURM_LOCALID" = none ∨
         env "SLURM_NTASKS" = none ∨ env "SLURM_JOB_NODELIST" = none) :
    (mainRun env a nb).2.isSome = true ∧ (mainRun env a nb).1 = [] ∧
      Event.modelConstruct ∉ (mainRun env a nb).1 ∧
      consoleOf (mainRun env a nb).1 = [] := by
  rcases hp : envNat env "SLURM_PROCID" with _ | r
  · simp [mainRun, hp, consoleOf]
  rcases hl : envNat env "SLURM_LOCALID" with _ | lr
  · simp [mainRun, hp, hl, consoleOf]
  rcases hn : envNat env "SLURM_NTASKS" with _ | ws
  · simp [mainRun, hp, hl, hn, consoleOf]
  rcases hj : env "SLURM_JOB_NODELIST" with _ | node
  · simp [mainRun, hp, hl, hn, hj, consoleOf]
  exfalso
  rcases h with h | h | h | h
  · simp [envNat, h] at hp
  · simp [envNat, h] at hl
  · simp [envNat, h] at hn
  · rw [h] at hj; exact Option.noConfusion hj

/-- Witness for C5: the empty environment aborts the run with no
events. -/
theorem missing_env_fails_fast_witness :
    envMissingAll "SLURM_PROCID" = none ∧
      ((mainRun envMissingAll ⟨2, 10, false⟩ 3).2.isSome = true ∧
       (mainRun envMissingAll ⟨2, 10, false⟩ 3).1 = [] ∧
       Event.modelConstruct ∉ (mainRun envMissingAll ⟨2, 10, false⟩ 3).1 ∧
       consoleOf (mainRun envMissingAll ⟨2, 10, false⟩ 3).1 = []) :=
  ⟨rfl, missing_env_fails_fast envMissingAll ⟨2, 10, false⟩ 3 (Or.inl rfl)⟩

/-- No checkpoint event arises inside `train`. -/
theorem saveCheckpoint_not_mem_trainEvents (li r e n : Nat) (f : String) :
    Event.saveCheckpoint f ∉ trainEvents li r e n := by
  intro hmem
  rw [trainEvents, List.mem_flatMap] at hmem
  obtain ⟨b, _hb, hin⟩ := hmem
  rw [List.mem_append] at hin
  rcases hin with hin | hin
  · simp at hin
  · split at hin <;> simp at hin

/-- No checkpoint event arises inside `test`. -/
theorem saveCheckpoint_not_mem_testEvents (r e : Nat) (f : String) :
    Event.saveCheckpoint f ∉ testEvents r e := by
  intro hmem
  rw [testEvents] at hmem
  split at hmem <;> simp at hmem

/-- No checkpoint event arises anywhere in the epoch loop. -/
theorem saveCheckpoint_not_mem_loopFrom (a : Args) (r nb : Nat) (f : String) :
    ∀ fuel e, Event.saveCheckpoint f ∉ loopFrom a r nb e fuel := by
  intro fuel
  induction fuel with
  | zero => intro e hmem; exact List.not_mem_nil _ hmem
  | succ m ih =>
    intro e hmem
    rw [loopFrom, List.mem_append] at hmem
    rcases hmem with hmem | hmem
    · rw [epochEvents, List.mem_append] at hmem
      rcases hmem with hmem | hmem
      · exact saveCheckpoint_not_mem_trainEvents a.logInterval r e nb f hmem
      · exact saveCheckpoint_not_mem_testEvents r e f hmem
    · exact ih (e + 1) hmem

/-- C8: for any epoch count, if the save-model flag is unset then the
run contains no checkpoint-write event, so no output parameter file is
created. -/
theorem no_checkpoint_when_flag_unset
    (env : Env) (a : Args) (nb : Nat) (f : String) (h : a.saveModel = false) :
    Event.saveCheckpoint f ∉ (mainRun env a nb).1 := by
  rcases hp : envNat env "SLURM_PROCID" with _ | r
  · simp [mainRun, hp]
  rcases hl : envNat env "SLURM_LOCALID" with _ | lr
  · simp [mainRun, hp, hl]
  rcases hn : envNat env "SLURM_NTASKS" with _ | ws
  · simp [mainRun, hp, hl, hn]
  rcases hj : env "SLURM_JOB_NODELIST" with _ | node
  · simp [mainRun, hp, hl, hn, hj]
  intro hmem
  by_cases hr0 : r = 0 <;>
    simp [mainRun, hp, hl, hn, hj, h, hr0, mainLoopEvents] at hmem <;>
    exact saveCheckpoint_not_mem_loopFrom a _ nb f a.epochs 1 hmem

/-- Witness for C8 at concrete inputs: flag unset, zero epochs also
covered by the theorem; here two epochs. -/
theorem no_checkpoint_when_flag_unset_witness :
    (Args.mk 2 10 false).saveModel = false ∧
      Event.saveCheckpoint "mnist_cnn.pt" ∉ (mainRun envRank0 ⟨2, 10, false⟩ 3).1 :=
  ⟨rfl, no_checkpoint_when_flag_unset envRank0 ⟨2, 10, false⟩ 3 "mnist_cnn.pt" rfl⟩

/-- C1 counterexample: the checkpoint write is not guarded by the rank.
A run whose global rank parses to 1 (not the coordinator) still
performs the checkpoint write when the save-model flag is set, refuting
the claim that only rank 0 writes. -/
theorem checkpoint_rank_guard_counterexample :
    envNat envRank1 "SLURM_PROCID" = some 1 ∧
      Event.saveCheckpoint "mnist_cnn.pt" ∈ (mainRun envRank1 ⟨1, 10, true⟩ 1).1 := by
  decide

/-- C1 (amended): when the save-model flag is set, every rank — not
only the coordinator — performs the checkpoint write to the fixed
filename after all epochs complete. -/
theorem checkpoint_written_by_every_rank
    (env : Env) (a : Args) (nb r lr ws : Nat) (node : String)
    (hr : envNat env "SLURM_PROCID" = some r)
    (hl : envNat env "SLURM_LOCALID" = some lr)
    (hn : envNat env "SLURM_NTASKS" = some ws)
    (hj : env "SLURM_JOB_NODELIST" = some node)
    (hs : a.saveModel = true) :
    Event.saveCheckpoint "mnist_cnn.pt" ∈ (mainRun env a nb).1 := by
  simp [mainRun, hr, hl, hn, hj, hs]

/-- Witness for the amended C1 at concrete inputs (rank 1). -/
theorem checkpoint_written_by_every_rank_witness :
    Event.saveCheckpoint "mnist_cnn.pt" ∈ (mainRun envRank1 ⟨1, 10, true⟩ 1).1 :=
  checkpoint_written_by_every_rank envRank1 ⟨1, 10, true⟩ 1 1 0 2 "node0"
    (by decide) (by decide) (by decide) (by decide) rfl

/-- The epoch loop starting at `e` with `fuel` iterations remaining
produces exactly the concatenated traces of epochs `e, e+1, ...`. -/
theorem loopFrom_eq_flatMap (a : Args) (r nb : Nat) :
    ∀ fuel e, loopFrom a r nb e fuel =
      (List.range' e fuel).flatMap (fun ep => epochEvents a r ep nb) := by
  intro fuel
  induction fuel with
  | zero => intro e; rfl
  | succ m ih =>
    intro e
    rw [loopFrom, List.range'_succ, List.flatMap_cons, ih (e + 1)]

/-- C6: for every epoch from 1 to the configured epoch count and every
batch in it, the loop performs fetch, forward, loss, backward, optimizer
step in that order (the five events occur as a subsequence of the run,
in order), and the loop's trace is exactly the concatenation of the
epoch traces for epochs 1..max, terminating when all epochs complete. -/
theorem training_loop_fixed_order
    (a : Args) (r nb e b : Nat) (he1 : 1 ≤ e) (he2 : e ≤ a.epochs) (hb : b < nb) :
    List.Sublist
      [Event.fetchBatch e b, Event.forwardPass e b, Event.computeLoss e b,
       Event.backwardPass e b, Event.optimizerStep e b]
      (mainLoopEvents a r nb) ∧
    mainLoopEvents a r nb =
      (List.range' 1 a.epochs).flatMap (fun ep => epochEvents a r ep nb) := by
  constructor
  · have h1 : List.Sublist
        [Event.fetchBatch e b, Event.forwardPass e b, Event.computeLoss e b,
         Event.backwardPass e b, Event.optimizerStep e b]
        ([Event.fetchBatch e b, Event.zeroGrad e b, Event.forwardPass e b,
          Event.computeLoss e b, Event.backwardPass e b, Event.optimizerStep e b]
         ++ (if b % a.logInterval = 0 ∧ r = 0
             then [Event.printTrainProgress e b] else [])) := by
      apply List.Sublist.trans _ (List.sublist_append_left _ _)
      exact List.Sublist.cons₂ _ (List.sublist_cons_self _ _)
    have h2 : ([Event.fetchBatch e b, Event.zeroGrad e b, Event.forwardPass e b,
          Event.computeLoss e b, Event.backwardPass e b, Event.optimizerStep e b]
         ++ (if b % a.logInterval = 0 ∧ r = 0
             then [Event.printTrainProgress e b] else [])) <:+:
        trainEvents a.logInterval r e nb := by
      rw [trainEvents, List.flatMap_def]
      exact List.infix_of_mem_flatten
        (List.mem_map_of_mem _ (List.mem_range.mpr hb))
    have h3 : List.Sublist (trainEvents a.logInterval r e nb) (epochEvents a r e nb) :=
      List.sublist_append_left _ _
    have h4 : epochEvents a r e nb <:+: mainLoopEvents a r nb := by
      rw [mainLoopEvents, loopFrom_eq_flatMap, List.flatMap_def]
      apply List.infix_of_mem_flatten
      apply List.mem_map_of_mem
      rw [List.mem_range'_1]
      exact ⟨he1, by omega⟩
    exact ((h1.trans h2.sublist).trans h3).trans h4.sublist
  · exact loopFrom_eq_flatMap a r nb a.epochs 1

/-- Witness for C6 at concrete inputs: two epochs, two batches,
epoch 1, batch 0. -/
theorem training_loop_fixed_order_witness :
    (1 ≤ 1 ∧ 1 ≤ (Args.mk 2 10 false).epochs ∧ 0 < 2) ∧
      (List.Sublist
        [Event.fetchBatch 1 0, Event.forwardPass 1 0, Event.computeLoss 1 0,
         Event.backwardPass 1 0, Event.optimizerStep 1 0]
        (mainLoopEvents ⟨2, 10, false⟩ 0 2) ∧
       mainLoopEvents ⟨2, 10, false⟩ 0 2 =
         (List.range' 1 (Args.mk 2 10 false).epochs).flatMap
           (fun ep => epochEvents ⟨2, 10, false⟩ 0 ep 2)) :=
  ⟨⟨by decide, by decide, by decide⟩,
    training_loop_fixed_order ⟨2, 10, false⟩ 0 2 1 0 (by decide) (by decide) (by decide)⟩

/-- C10 counterexample: the printed average does NOT differ from the
per-example mean loss on every shard with unequal batch sizes — with
batches of sizes 1 and 2 whose losses are all zero (N = 3, W = 1), both
quantities are 0, refuting the "whenever" in the claim. -/
theorem eval_loss_unequal_batches_counterexample :
    ([[(0 : ℚ)], [0, 0]].map List.length) = [1, 2] ∧
      (testRun [[(0 : ℚ)], [0, 0]] [1, 1] 3 1).avgLoss =
        perExampleMeanLoss [[(0 : ℚ)], [0, 0]] := by
  constructor
  · rfl
  · norm_num [testRun, perExampleMeanLoss, testLossAccum, batchMeanLoss,
      expectedShardSize]

/-- C10 (amended): the evaluation loop accumulates per-batch mean
losses (not per-example sums), the printed average loss equals
(sum of per-batch mean losses) / (total dataset size / world_size),
and this can differ from the per-example mean loss when the shard's
batches have unequal sizes: with batches [[0], [3, 3]] (sizes 1 and 2,
N = 3, W = 1) the accumulated loss is 3, not the per-example sum 6, and
the printed average is 1 while the per-example mean is 2. -/
theorem eval_loss_is_sum_of_batch_means
    (batches : List (List ℚ)) (cb : List Nat) (N W : Nat) :
    (testRun batches cb N W).avgLoss =
      (batches.map batchMeanLoss).sum / expectedShardSize N W ∧
    testLossAccum [[(0 : ℚ)], [3, 3]] ≠ ([[(0 : ℚ)], [3, 3]].map List.sum).sum ∧
    (testRun [[(0 : ℚ)], [3, 3]] [1, 1] 3 1).avgLoss ≠
      perExampleMeanLoss [[(0 : ℚ)], [3, 3]] := by
  refine ⟨rfl, ?_, ?_⟩
  · norm_num [testLossAccum, batchMeanLoss]
  · norm_num [testRun, perExampleMeanLoss, testLossAccum, batchMeanLoss,
      expectedShardSize]

/-- The padded index list is long enough to hold the dataset:
`N ≤ ceil(N/W) * W`. -/
theorem le_totalSize (N W : Nat) (hW : 0 < W) : N ≤ totalSize N W := by
  rw [totalSize, numSamples]
  have hq : (N + W - 1) < ((N + W - 1) / W + 1) * W :=
    (Nat.div_lt_iff_lt_mul hW).mp (Nat.lt_succ_self _)
  rw [Nat.add_mul, Nat.one_mul] at hq
  omega

/-- Every strided position of a valid rank lies inside the padded
list. -/
theorem pos_lt_totalSize (N W r j : Nat) (hr : r < W) (hj : j < numSamples N W) :
    r + j * W < totalSize N W := by
  rw [totalSize]
  have h1 : r + j * W < j * W + W := by omega
  have h2 : (j + 1) * W ≤ numSamples N W * W := Nat.mul_le_mul_right W hj
  rw [Nat.add_mul, Nat.one_mul] at h2
  omega

/-- Membership in a shard, unfolded: some stride index `j` hits the
value. -/
theorem mem_shardIndices_iff (base : List Nat) (W r v : Nat) :
    v ∈ shardIndices base W r ↔
      ∃ j, j < numSamples base.length W ∧ padGet base (r + j * W) = v := by
  simp [shardIndices, List.mem_map, List.mem_range]

/-- Inside the dataset, `padGet` is plain indexing. -/
theorem padGet_eq_getElem (base : List Nat) (p : Nat) (h : p < base.length) :
    padGet base p = base[p] := by
  rw [padGet, Nat.mod_eq_of_lt h]
  exact List.getD_eq_getElem base 0 h

/-- Coverage: every dataset index is taken by some rank. -/
theorem shard_cover (base : List Nat) (W : Nat) (hW : 0 < W)
    (hperm : base.Perm (List.range base.length)) :
    ∀ i, i < base.length → ∃ r, r < W ∧ i ∈ shardIndices base W r := by
  intro i hi
  have hmem : i ∈ base := hperm.mem_iff.mpr (List.mem_range.mpr hi)
  obtain ⟨p, hp, hpe⟩ := List.mem_iff_getElem.mp hmem
  refine ⟨p % W, Nat.mod_lt _ hW, ?_⟩
  rw [mem_shardIndices_iff]
  refine ⟨p / W, ?_, ?_⟩
  · rw [numSamples]
    have hlt : p < totalSize base.length W :=
      Nat.lt_of_lt_of_le hp (le_totalSize _ W hW)
    rw [totalSize, numSamples] at hlt
    exact (Nat.div_lt_iff_lt_mul hW).mpr hlt
  · have hpos : p % W + p / W * W = p := by
      have h := Nat.mod_add_div p W
      have hc : W * (p / W) = p / W * W := Nat.mul_comm _ _
      omega
    rw [hpos, padGet_eq_getElem base p hp, hpe]

/-- Disjointness up to padding: a value two distinct ranks share must
come from the padding region of the padded index list. -/
theorem shard_overlap_is_padding (base : List Nat) (W : Nat) (hW : 0 < W)
    (hperm : base.Perm (List.range base.length)) :
    ∀ r₁ r₂, r₁ < W → r₂ < W → r₁ ≠ r₂ → ∀ v,
      v ∈ shardIndices base W r₁ → v ∈ shardIndices base W r₂ →
      v ∈ paddingValues base W := by
  intro r₁ r₂ hr₁ hr₂ hne v hv₁ hv₂
  obtain ⟨j₁, hj₁, he₁⟩ := (mem_shardIndices_iff base W r₁ v).mp hv₁
  obtain ⟨j₂, hj₂, he₂⟩ := (mem_shardIndices_iff base W r₂ v).mp hv₂
  have hN : 0 < base.length := by
    by_contra h0
    have hz : base.length = 0 := by omega
    rw [hz, numSamples, Nat.zero_add, Nat.div_eq_of_lt (by omega)] at hj₁
    exact Nat.not_lt_zero _ hj₁
  have hp₁T : r₁ + j₁ * W < totalSize base.length W :=
    pos_lt_totalSize base.length W r₁ j₁ hr₁ hj₁
  have hp₂T : r₂ + j₂ * W < totalSize base.length W :=
    pos_lt_totalSize base.length W r₂ j₂ hr₂ hj₂
  have hnd : base.Nodup := hperm.nodup_iff.mpr (List.nodup_range _)
  have hm₁ : (r₁ + j₁ * W) % W = r₁ := by
    rw [Nat.add_mul_mod_self_right, Nat.mod_eq_of_lt hr₁]
  have hm₂ : (r₂ + j₂ * W) % W = r₂ := by
    rw [Nat.add_mul_mod_self_right, Nat.mod_eq_of_lt hr₂]
  have hpne : r₁ + j₁ * W ≠ r₂ + j₂ * W := by
    intro h
    exact hne (by rw [← hm₁, ← hm₂, h])
  have hmod₁ : (r₁ + j₁ * W) % base.length < base.length := Nat.mod_lt _ hN
  have hmod₂ : (r₂ + j₂ * W) % base.length < base.length := Nat.mod_lt _ hN
  have hg₁ : base[(r₁ + j₁ * W) % base.length] = v := by
    rw [← List.getD_eq_getElem base 0 hmod₁]
    exact he₁
  have hg₂ : base[(r₂ + j₂ * W) % base.length] = v := by
    rw [← List.getD_eq_getElem base 0 hmod₂]
    exact he₂
  have hmodeq : (r₁ + j₁ * W) % base.length = (r₂ + j₂ * W) % base.length :=
    (hnd.getElem_inj_iff).mp (by rw [hg₁, hg₂])
  rcases Nat.lt_or_ge (r₁ + j₁ * W) base.length with h₁ | h₁
  · rcases Nat.lt_or_ge (r₂ + j₂ * W) base.length with h₂ | h₂
    · exfalso
      apply hpne
      rw [Nat.mod_eq_of_lt h₁, Nat.mod_eq_of_lt h₂] at hmodeq
      exact hmodeq
    · rw [paddingValues]
      refine List.mem_map.mpr ⟨r₂ + j₂ * W - base.length, List.mem_range.mpr (by omega), ?_⟩
      rw [show base.length + (r₂ + j₂ * W - base.length) = r₂ + j₂ * W from by omega]
      exact he₂
  · rw [paddingValues]
    refine List.mem_map.mpr ⟨r₁ + j₁ * W - base.length, List.mem_range.mpr (by omega), ?_⟩
    rw [show base.length + (r₁ + j₁ * W - base.length) = r₁ + j₁ * W from by omega]
    exact he₁

/-- C4: for every dataset size N (a shuffled base order, i.e. any
permutation of range N) and world size W ≥ 1, every shard's size is
floor(N/W) or ceil(N/W) (it is exactly ceil(N/W)); the shards cover
every one of the N indices; and two distinct ranks can share a value
only through the controlled padding region. -/
theorem shard_partition_correct (base : List Nat) (W : Nat) (hW : 0 < W)
    (hperm : base.Perm (List.range base.length)) :
    (∀ r, (shardIndices base W r).length = base.length / W ∨
          (shardIndices base W r).length = (base.length + W - 1) / W) ∧
    (∀ i, i < base.length → ∃ r, r < W ∧ i ∈ shardIndices base W r) ∧
    (∀ r₁ r₂, r₁ < W → r₂ < W → r₁ ≠ r₂ → ∀ v,
      v ∈ shardIndices base W r₁ → v ∈ shardIndices base W r₂ →
      v ∈ paddingValues base W) := by
  refine ⟨fun r => Or.inr ?_, shard_cover base W hW hperm,
    shard_overlap_is_padding base W hW hperm⟩
  simp [shardIndices, numSamples]

/-- Witness for C4 at concrete inputs: a shuffled dataset of size 5
([2, 0, 1, 3, 4]) split over 2 ranks. -/
theorem shard_partition_correct_witness :
    (0 < 2 ∧ ([2, 0, 1, 3, 4] : List Nat).Perm (List.range 5)) ∧
      ((∀ r, (shardIndices [2, 0, 1, 3, 4] 2 r).length =
            ([2, 0, 1, 3, 4] : List Nat).length / 2 ∨
          (shardIndices [2, 0, 1, 3, 4] 2 r).length =
            (([2, 0, 1, 3, 4] : List Nat).length + 2 - 1) / 2) ∧
       (∀ i, i < ([2, 0, 1, 3, 4] : List Nat).length →
          ∃ r, r < 2 ∧ i ∈ shardIndices [2, 0, 1, 3, 4] 2 r) ∧
       (∀ r₁ r₂, r₁ < 2 → r₂ < 2 → r₁ ≠ r₂ → ∀ v,
          v ∈ shardIndices [2, 0, 1, 3, 4] 2 r₁ →
          v ∈ shardIndices [2, 0, 1, 3, 4] 2 r₂ →
          v ∈ paddingValues [2, 0, 1, 3, 4] 2)) :=
  ⟨⟨by decide, by decide⟩,
    shard_partition_correct [2, 0, 1, 3, 4] 2 (by decide) (by decide)⟩
